import Mathlib

/-
Shallow embedding of the rmux wire-protocol engine
(src/connection/connection.go: package connection and package protocol).

Bytes are modelled as natural numbers below 256; byte strings as List Nat.
Go machine integers (int, 64-bit) are modelled as Int with an explicit
wrap to the signed 64-bit range wherever Go arithmetic can overflow.
-/

namespace Rmux

/-- Signed 64-bit bound, 2 to the 63rd. -/
def TWO63 : Int := 9223372036854775808

/-- Unsigned 64-bit modulus, 2 to the 64th. -/
def TWO64 : Int := 18446744073709551616

/-- Nat version of the 64-bit modulus. -/
def M64 : Nat := 18446744073709551616

/-- Interpretation of a wrapped 64-bit value as a signed Go int:
reduce modulo 2 to the 64th and re-center into the signed range. -/
def w64 (x : Int) : Int :=
  if x % TWO64 < TWO63 then x % TWO64 else x % TWO64 - TWO64

/-- View of a nonnegative accumulator (tracked modulo 2 to the 64th)
as the signed Go int it denotes. -/
def toSigned64 (n : Nat) : Int := w64 (n : Int)

-- Wire constants from the protocol package (byte values).
/-- BUFFER_SIZE constant: bufio's default buffer size. -/
def BUFFER_SIZE : Nat := 4096

/-- OK_RESPONSE: the bytes of plus O K. -/
def OK_RESPONSE : List Nat := [43, 79, 75]

/-- ERR_RESPONSE: the bytes of dollar minus one (the null bulk reply). -/
def ERR_RESPONSE : List Nat := [36, 45, 49]

/-- REDIS_NEWLINE: carriage return, line feed. -/
def REDIS_NEWLINE : List Nat := [13, 10]

/-- Loop body of protocol.ParseInt: for each byte b the code computes
b - 48 on a uint8 (wrapping below zero), rejects results above 9, and
otherwise accumulates length1 = length*10 + digit on a Go int (the
accumulator is tracked here modulo 2 to the 64th; the signed view is
taken at the end). -/
def parseIntLoop : List Nat → Nat → Option Nat
  | [], acc => some acc
  | b :: rest, acc =>
    let d := (b + 208) % 256
    if d > 9 then none
    else parseIntLoop rest ((acc * 10 + d) % M64)

/-- protocol.ParseInt: parses a decimal byte string; returns the signed
Go int the accumulator holds at the end, or none for ERROR_INVALID_INT. -/
def ParseInt (response : List Nat) : Option Int :=
  (parseIntLoop response 0).map toSigned64

/-- Exact (unbounded) decimal value of a digit string, used to state what
ParseInt would return without overflow. -/
def rawVal (ds : List Nat) (acc : Nat) : Nat :=
  ds.foldl (fun a d => a * 10 + (d - 48)) acc

/-- Decimal digit encoder (fuel-indexed; fuel strictly exceeding n makes the
fuel branch unreachable). Produces the ASCII digits of n, most significant
first. Used to state universal properties about length headers. -/
def natDigitsF : Nat → Nat → List Nat
  | 0, _ => []
  | fuel + 1, n => if n < 10 then [n + 48] else natDigitsF fuel (n / 10) ++ [n % 10 + 48]

/-- ASCII decimal digits of n, most significant first. -/
def natDigits (n : Nat) : List Nat := natDigitsF (n + 1) n

/-! ### Lemmas about ParseInt -/

theorem parseIntLoop_nondigit (ds : List Nat) (b : Nat) (hmem : b ∈ ds) (hb : b < 256)
    (hnd : b < 48 ∨ 57 < b) : ∀ acc, parseIntLoop ds acc = none := by
  induction ds with
  | nil => cases hmem
  | cons a rest ih =>
    intro acc
    rcases List.mem_cons.mp hmem with h | h
    · subst h
      have : (b + 208) % 256 > 9 := by omega
      simp [parseIntLoop, this]
    · by_cases hd : (a + 208) % 256 > 9
      · simp [parseIntLoop, hd]
      · simp only [parseIntLoop, if_neg hd]
        exact ih h _

theorem rawVal_congr (ds : List Nat) :
    ∀ a b : Nat, a % M64 = b % M64 → rawVal ds a % M64 = rawVal ds b % M64 := by
  induction ds with
  | nil => intro a b h; simpa [rawVal] using h
  | cons d rest ih =>
    intro a b h
    simp only [rawVal, List.foldl_cons] at *
    apply ih
    have h10 : a * 10 % M64 = b * 10 % M64 := by
      rw [Nat.mul_mod, h, ← Nat.mul_mod]
    rw [Nat.add_mod, h10, ← Nat.add_mod]

theorem parseIntLoop_digits (ds : List Nat) (hds : ∀ d ∈ ds, 48 ≤ d ∧ d ≤ 57) :
    ∀ acc, acc < M64 → parseIntLoop ds acc = some (rawVal ds acc % M64) := by
  induction ds with
  | nil =>
    intro acc hacc
    simp [parseIntLoop, rawVal, Nat.mod_eq_of_lt hacc]
  | cons d rest ih =>
    intro acc hacc
    have hd : 48 ≤ d ∧ d ≤ 57 := hds d (List.mem_cons_self d rest)
    have hdig : (d + 208) % 256 = d - 48 := by omega
    have hnot : ¬ ((d + 208) % 256 > 9) := by omega
    simp only [parseIntLoop, if_neg hnot]
    rw [ih (fun x hx => hds x (List.mem_cons_of_mem d hx)) _ (Nat.mod_lt _ (by norm_num [M64]))]
    congr 1
    rw [hdig]
    apply rawVal_congr
    exact Nat.mod_mod_of_dvd _ dvd_rfl

theorem ParseInt_digits (ds : List Nat) (hds : ∀ d ∈ ds, 48 ≤ d ∧ d ≤ 57) :
    ParseInt ds = some (toSigned64 (rawVal ds 0 % M64)) := by
  unfold ParseInt
  rw [parseIntLoop_digits ds hds 0 (by norm_num [M64])]
  rfl

theorem toSigned64_small (n : Nat) (h : (n : Int) < TWO63) : toSigned64 n = (n : Int) := by
  unfold toSigned64 w64 TWO63 TWO64
  unfold TWO63 at h
  omega

theorem ParseInt_digits_small (ds : List Nat) (hds : ∀ d ∈ ds, 48 ≤ d ∧ d ≤ 57)
    (hsmall : rawVal ds 0 < 9223372036854775808) :
    ParseInt ds = some ((rawVal ds 0 : Nat) : Int) := by
  rw [ParseInt_digits ds hds]
  have hlt : rawVal ds 0 % M64 = rawVal ds 0 := Nat.mod_eq_of_lt (by norm_num [M64]; omega)
  rw [hlt, toSigned64_small]
  have : ((9223372036854775808 : Nat) : Int) = TWO63 := by norm_num [TWO63]
  omega

/-! ### Lemmas about natDigits -/

theorem natDigitsF_spec : ∀ fuel n, n < fuel →
    (∀ d ∈ natDigitsF fuel n, 48 ≤ d ∧ d ≤ 57) ∧
    natDigitsF fuel n ≠ [] ∧
    (∀ acc, rawVal (natDigitsF fuel n) acc = acc * 10 ^ (natDigitsF fuel n).length + n) := by
  intro fuel
  induction fuel with
  | zero => intro n h; omega
  | succ f ih =>
    intro n hn
    by_cases h10 : n < 10
    · refine ⟨?_, ?_, ?_⟩
      · intro d hd
        simp [natDigitsF, if_pos h10] at hd
        omega
      · simp [natDigitsF, if_pos h10]
      · intro acc
        simp [natDigitsF, if_pos h10, rawVal]
    · have hrec : n / 10 < f := by omega
      obtain ⟨ihm, ihne, ihv⟩ := ih (n / 10) hrec
      refine ⟨?_, ?_, ?_⟩
      · intro d hd
        simp only [natDigitsF, if_neg h10, List.mem_append, List.mem_singleton] at hd
        rcases hd with hd | hd
        · exact ihm d hd
        · omega
      · simp [natDigitsF, if_neg h10]
      · intro acc
        simp only [natDigitsF, if_neg h10]
        unfold rawVal
        rw [List.foldl_append]
        have hv := ihv acc
        unfold rawVal at hv
        rw [hv]
        simp only [List.foldl_cons, List.foldl_nil, List.length_append, List.length_singleton]
        have h48 : n % 10 + 48 - 48 = n % 10 := by omega
        rw [h48, pow_succ]
        have hx : (acc * 10 ^ (natDigitsF f (n / 10)).length + n / 10) * 10 + n % 10
            = acc * (10 ^ (natDigitsF f (n / 10)).length * 10) + (n / 10 * 10 + n % 10) := by
          ring
        rw [hx]
        congr 1
        omega

theorem natDigits_mem (n : Nat) : ∀ d ∈ natDigits n, 48 ≤ d ∧ d ≤ 57 :=
  (natDigitsF_spec (n + 1) n (Nat.lt_succ_self n)).1

theorem natDigits_ne_nil (n : Nat) : natDigits n ≠ [] :=
  (natDigitsF_spec (n + 1) n (Nat.lt_succ_self n)).2.1

theorem rawVal_natDigits (n : Nat) : rawVal (natDigits n) 0 = n := by
  have := (natDigitsF_spec (n + 1) n (Nat.lt_succ_self n)).2.2 0
  simpa [natDigits] using this

theorem ParseInt_natDigits (n : Nat) (h : n < 9223372036854775808) :
    ParseInt (natDigits n) = some ((n : Nat) : Int) := by
  have := ParseInt_digits_small (natDigits n) (natDigits_mem n)
    (by rw [rawVal_natDigits]; exact h)
  rwa [rawVal_natDigits] at this

theorem natDigitsF_length_le : ∀ fuel n k, n < fuel → n < 10 ^ k → 1 ≤ k →
    (natDigitsF fuel n).length ≤ k := by
  intro fuel
  induction fuel with
  | zero => intro n k h; omega
  | succ f ih =>
    intro n k hn hpow hk
    by_cases h10 : n < 10
    · simp [natDigitsF, if_pos h10]
      omega
    · have hk2 : 2 ≤ k := by
        by_contra hcon
        have : k = 1 := by omega
        subst this
        simp at hpow
        omega
      have hrec : n / 10 < f := by omega
      have hdivpow : n / 10 < 10 ^ (k - 1) := by
        have : 10 ^ k = 10 ^ (k - 1) * 10 := by
          rw [← pow_succ]
          congr 1
          omega
        rw [this] at hpow
        omega
      have := ih (n / 10) (k - 1) hrec hdivpow (by omega)
      simp only [natDigitsF, if_neg h10, List.length_append, List.length_singleton]
      omega

theorem natDigits_length_le_19 (n : Nat) (h : n < 9223372036854775808) :
    (natDigits n).length ≤ 19 := by
  apply natDigitsF_length_le (n + 1) n 19 (Nat.lt_succ_self n) _ (by norm_num)
  calc n < 9223372036854775808 := h
    _ < 10 ^ 19 := by norm_num

/-! ### Embedding of protocol.GetCommand

GetCommand peeks at the bytes already buffered in a bufio.Reader, so the
reader is modelled as the buffered bytes plus the bytes still unread in the
underlying source. Peek fills from the source only when asked for more than
is buffered (GetCommand always asks for exactly the buffered count). Go
slice expressions and byte indexing panic when out of bounds, so slicing is
modelled with explicit bounds checks whose failure produces a distinguished
panicked result. -/

/-- Error values a protocol operation can return. -/
inductive PErr where
  | errorInvalidInt
  | errorMultibulkFormatRequired
  | errorBadBulkFormat
  | readFailed
  deriving DecidableEq, Repr

/-- The named return values of GetCommand: command and firstArgument are
nil (none) unless assigned on the path taken. -/
structure GetOut where
  command : Option (List Nat)
  firstArgument : Option (List Nat)
  err : Option PErr
  deriving DecidableEq, Repr

/-- A GetCommand run either returns its named values or panics on an
out-of-range slice or index. -/
inductive GetResult where
  | ret (o : GetOut)
  | panicked
  deriving DecidableEq, Repr

/-- bytes.IndexByte: index of the first occurrence, or minus one. -/
def indexByte (xs : List Nat) (b : Nat) : Int :=
  match xs.findIdx? (fun x => x = b) with
  | some i => (i : Int)
  | none => -1

/-- Go slice expression xs[lo:hi]: defined when 0 ≤ lo ≤ hi ≤ len, panics
otherwise (modelled as none). -/
def goSlice (xs : List Nat) (lo hi : Int) : Option (List Nat) :=
  if 0 ≤ lo ∧ lo ≤ hi ∧ hi ≤ (xs.length : Int) then
    some ((xs.drop lo.toNat).take (hi - lo).toNat)
  else none

/-- Go slice expression xs[lo:]. -/
def goSliceFrom (xs : List Nat) (lo : Int) : Option (List Nat) :=
  goSlice xs lo (xs.length : Int)

/-- The in-place canonicalization loop of GetCommand: every byte at most
the code of capital Z (90) has 32 added to it; larger bytes are kept. -/
def lowercaseCommand (cmd : List Nat) : List Nat :=
  cmd.map (fun value => if value ≤ 90 then value + 32 else value)

/-- Core of GetCommand operating on the peeked contents; returns the result
together with the contents as mutated in place by the lowercasing loop. -/
def getCommandPure (contents : List Nat) : GetResult × List Nat :=
  let nextLine := indexByte contents 13
  if nextLine = -1 then
    (.ret ⟨none, none, some .errorMultibulkFormatRequired⟩, contents)
  else
    match goSlice contents 1 nextLine with
    | none => (.panicked, contents)
    | some hdrBytes =>
      match ParseInt hdrBytes with
      | none => (.ret ⟨none, none, some .errorInvalidInt⟩, contents)
      | some messageLength =>
        let nl2 := nextLine + 2
        let cmdEnd := w64 (nl2 + messageLength)
        let endPos := w64 (cmdEnd + 2)
        if endPos > (contents.length : Int) then
          (.ret ⟨none, none, some .errorMultibulkFormatRequired⟩, contents)
        else
          match goSlice contents nl2 cmdEnd with
          | none => (.panicked, contents)
          | some rawCmd =>
            let command := lowercaseCommand rawCmd
            let contents2 := contents.take nl2.toNat ++ command ++ contents.drop cmdEnd.toNat
            if endPos = (contents.length : Int) then
              (.ret ⟨some command, none, none⟩, contents2)
            else
              match goSliceFrom contents2 endPos with
              | none => (.panicked, contents2)
              | some tail =>
                let j := indexByte tail 13
                if j = -1 then
                  (.ret ⟨some command, none, some .errorMultibulkFormatRequired⟩, contents2)
                else
                  let nextLine3 := j + endPos
                  match goSlice contents2 (endPos + 1) nextLine3 with
                  | none => (.panicked, contents2)
                  | some argHdr =>
                    match ParseInt argHdr with
                    | none => (.ret ⟨some command, none, some .errorInvalidInt⟩, contents2)
                    | some argLen =>
                      let nl4 := nextLine3 + 2
                      let argEnd := w64 (nl4 + argLen)
                      let endPos2 := w64 (argEnd + 2)
                      if endPos2 > (contents2.length : Int) then
                        (.ret ⟨some command, none, some .errorMultibulkFormatRequired⟩, contents2)
                      else
                        match goSlice contents2 nl4 argEnd with
                        | none => (.panicked, contents2)
                        | some firstArgument =>
                          (.ret ⟨some command, some firstArgument, none⟩, contents2)

/-- A bufio.Reader: the bytes currently buffered and the bytes still
unread in the underlying source. -/
structure BufReader where
  buf : List Nat
  src : List Nat
  deriving DecidableEq, Repr

/-- Filling step of bufio: reading n bytes ahead consumes from the
underlying source only when more than the buffered count is requested. -/
def fillTo (r : BufReader) (n : Nat) : BufReader :=
  if n ≤ r.buf.length then r
  else
    { buf := r.buf ++ r.src.take (n - r.buf.length),
      src := r.src.drop (n - r.buf.length) }

/-- bufio Peek: returns a view of the first n bytes after filling. -/
def peek (r : BufReader) (n : Nat) : List Nat × BufReader :=
  let r2 := fillTo r n
  (r2.buf.take n, r2)

/-- protocol.GetCommand: peeks at exactly the buffered byte count, then
scans the peeked contents; the lowercasing writes through the peeked view
back into the buffer. -/
def GetCommand (source : BufReader) : GetResult × BufReader :=
  let pr := peek source source.buf.length
  let res := getCommandPure pr.1
  (res.1, { buf := res.2, src := pr.2.src })

theorem peek_buffered (r : BufReader) : peek r r.buf.length = (r.buf, r) := by
  simp [peek, fillTo]

theorem GetCommand_eq (r : BufReader) :
    GetCommand r = ((getCommandPure r.buf).1, ⟨(getCommandPure r.buf).2, r.src⟩) := by
  simp [GetCommand, peek_buffered]

theorem w64_self (x : Int) (h1 : -TWO63 ≤ x) (h2 : x < TWO63) : w64 x = x := by
  unfold w64 TWO63 TWO64
  unfold TWO63 at h1 h2
  omega

/-- When the declared length of the first bulk element exceeds the buffered
bytes, GetCommand returns the multibulk format error with neither a command
nor an argument, and the reader is untouched. -/
theorem getCommandPure_first_underflow (contents : List Nat) (i : Nat) (L : Int)
    (hfind : contents.findIdx? (fun x => x = 13) = some i)
    (hi : 1 ≤ i)
    (hP : ParseInt ((contents.drop 1).take (i - 1)) = some L)
    (hL0 : 0 ≤ L) (hLb : L ≤ 2305843009213693952)
    (hlen : contents.length < 2305843009213693952)
    (hover : (i : Int) + 2 + L + 2 > (contents.length : Int)) :
    getCommandPure contents
      = (.ret ⟨none, none, some .errorMultibulkFormatRequired⟩, contents) := by
  have hilen : i < contents.length :=
    (List.findIdx?_eq_some_iff_findIdx_eq.mp hfind).1
  have hIB : indexByte contents 13 = (i : Int) := by simp [indexByte, hfind]
  have h1 : ¬ ((i : Int) = -1) := by omega
  have hslice : goSlice contents 1 (i : Int) = some ((contents.drop 1).take (i - 1)) := by
    unfold goSlice
    rw [if_pos ⟨by omega, by omega, by omega⟩]
    have ht : ((i : Int) - 1).toNat = i - 1 := by omega
    rw [ht]
    rfl
  have hbig : TWO63 = 9223372036854775808 := rfl
  have hw1 : w64 ((i : Int) + 2 + L) = (i : Int) + 2 + L := by
    apply w64_self <;> rw [hbig] <;> omega
  have hw2 : w64 ((i : Int) + 2 + L + 2) = (i : Int) + 2 + L + 2 := by
    apply w64_self <;> rw [hbig] <;> omega
  simp only [getCommandPure, hIB, if_neg h1, hslice, hP, hw1, hw2, if_pos hover]

/-! ### Claim C7 -/

/-- C7: ParseInt accepts only unsigned decimal digit strings: input of the
single byte 48 gives 0 with no error; the digits of 123 give 123; the bytes
of one, two, letter a give an invalid-integer error; the empty input gives
0 with no error; and any input containing a byte outside the ASCII digit
range (such as plus or minus signs) yields an invalid-integer error. -/
theorem parseInt_digit_strings_only (bs : List Nat) (b : Nat) (hmem : b ∈ bs)
    (hb : b < 256) (hnd : b < 48 ∨ 57 < b) :
    ParseInt [48] = some 0 ∧
    ParseInt [49, 50, 51] = some 123 ∧
    ParseInt [49, 50, 97] = none ∧
    ParseInt [] = some 0 ∧
    ParseInt bs = none := by
  refine ⟨by decide, by decide, by decide, by decide, ?_⟩
  unfold ParseInt
  rw [parseIntLoop_nondigit bs b hmem hb hnd 0]
  rfl

/-- Witness for C7 at the concrete input consisting of the plus sign (43). -/
theorem parseInt_digit_strings_only_witness :
    ParseInt [48] = some 0 ∧
    ParseInt [49, 50, 51] = some 123 ∧
    ParseInt [49, 50, 97] = none ∧
    ParseInt [] = some 0 ∧
    ParseInt [43] = none :=
  parseInt_digit_strings_only [43] 43 (List.mem_singleton.mpr rfl) (by decide)
    (Or.inl (by decide))

/-! ### Claim C10 -/

/-- C10: on input consisting solely of ASCII digits ParseInt never errors,
and the returned value equals the exact decimal value only when that value
fits below 2 to the 63rd; the accumulator wraps modulo 2 to the 64th, so the
19 digits of 2 to the 63rd parse, with no error, to the negative value
minus 2 to the 63rd. -/
theorem parseInt_wraps_modulo_2_64 (ds : List Nat) (hds : ∀ d ∈ ds, 48 ≤ d ∧ d ≤ 57) :
    (ParseInt ds).isSome = true ∧
    (rawVal ds 0 < 9223372036854775808 → ParseInt ds = some ((rawVal ds 0 : Nat) : Int)) ∧
    ParseInt [57, 50, 50, 51, 51, 55, 50, 48, 51, 54, 56, 53, 52, 55, 55, 53, 56, 48, 56]
      = some (-9223372036854775808) := by
  refine ⟨?_, ?_, by decide⟩
  · rw [ParseInt_digits ds hds]
    rfl
  · intro h
    exact ParseInt_digits_small ds hds h

/-- Witness for C10 at the concrete all-digit input one, two. -/
theorem parseInt_wraps_modulo_2_64_witness :
    (ParseInt [49, 50]).isSome = true ∧
    (rawVal [49, 50] 0 < 9223372036854775808 →
      ParseInt [49, 50] = some ((rawVal [49, 50] 0 : Nat) : Int)) ∧
    ParseInt [57, 50, 50, 51, 51, 55, 50, 48, 51, 54, 56, 53, 52, 55, 55, 53, 56, 48, 56]
      = some (-9223372036854775808) :=
  parseInt_wraps_modulo_2_64 [49, 50] (by decide)

/-! ### Claim C1

The bytes of the full multibulk request star 2, dollar 3, GET, dollar 3,
foo (each line CRLF-terminated) are
[42,50,13,10,36,51,13,10,71,69,84,13,10,36,51,13,10,102,111,111,13,10];
the same request without its star-count header line starts at byte 36. -/

/-- C1 counterexample: on a buffered reader holding exactly the multibulk
request star 2, dollar 3, GET, dollar 3, foo, GetCommand does not return
the command get with argument foo and no error (it parses the star line as
a bulk-length header and fails). -/
theorem getCommand_full_request_cex :
    (GetCommand ⟨[42, 50, 13, 10, 36, 51, 13, 10, 71, 69, 84, 13, 10,
        36, 51, 13, 10, 102, 111, 111, 13, 10], []⟩).1
      ≠ .ret ⟨some [103, 101, 116], some [102, 111, 111], none⟩ := by decide

/-- C1 amended: GetCommand expects the buffer to begin at the first bulk
header line. On dollar 3, GET, dollar 3, foo it returns the lowercased
command get, the argument foo and no error (and the command bytes are
lowercased in place in the buffer); on the full multibulk form with the
star-count line it instead returns the invalid-integer error, with the two
bytes it mistook for the command mutated to 68, 83. -/
theorem getCommand_extracts_command_and_argument :
    GetCommand ⟨[36, 51, 13, 10, 71, 69, 84, 13, 10, 36, 51, 13, 10,
        102, 111, 111, 13, 10], []⟩
      = (.ret ⟨some [103, 101, 116], some [102, 111, 111], none⟩,
         ⟨[36, 51, 13, 10, 103, 101, 116, 13, 10, 36, 51, 13, 10,
           102, 111, 111, 13, 10], []⟩) ∧
    (GetCommand ⟨[42, 50, 13, 10, 36, 51, 13, 10, 71, 69, 84, 13, 10,
        36, 51, 13, 10, 102, 111, 111, 13, 10], []⟩).1
      = .ret ⟨some [68, 83], none, some .errorInvalidInt⟩ := by decide

/-! ### Claim C5 -/

/-- C5 counterexample: the canonicalization does not leave digits
unchanged. On the buffered request dollar 4, GET1, the returned command is
g, e, t, Q (the digit one, byte 49, was shifted to 81), not g, e, t, 1. -/
theorem getCommand_lowercase_digit_cex :
    (GetCommand ⟨[36, 52, 13, 10, 71, 69, 84, 49, 13, 10], []⟩).1
      = .ret ⟨some [103, 101, 116, 81], none, none⟩ ∧
    (GetCommand ⟨[36, 52, 13, 10, 71, 69, 84, 49, 13, 10], []⟩).1
      ≠ .ret ⟨some [103, 101, 116, 49], none, none⟩ := by decide

/-- C5 amended: the in-place canonicalization adds 32 to every byte that is
at most the code of capital Z (90) — so uppercase ASCII letters are mapped
to their lowercase counterparts, but digits, punctuation and control bytes
below 91 are shifted as well — and leaves every byte above 90 unchanged. -/
theorem lowercase_shifts_every_byte_le_Z (v : Nat) (hv : v < 256) :
    (65 ≤ v ∧ v ≤ 90 → lowercaseCommand [v] = [v + 32]) ∧
    (v ≤ 90 → lowercaseCommand [v] = [v + 32]) ∧
    (90 < v → lowercaseCommand [v] = [v]) := by
  refine ⟨fun h => ?_, fun h => ?_, fun h => ?_⟩ <;>
    simp [lowercaseCommand] <;> omega

/-- Witness for C5 at the digit byte 49 (shifted to 81) and via the third
conjunct at nothing further; the hypothesis 49 < 256 is discharged. -/
theorem lowercase_shifts_every_byte_le_Z_witness :
    (65 ≤ 49 ∧ 49 ≤ 90 → lowercaseCommand [49] = [49 + 32]) ∧
    (49 ≤ 90 → lowercaseCommand [49] = [49 + 32]) ∧
    (90 < 49 → lowercaseCommand [49] = [49]) :=
  lowercase_shifts_every_byte_le_Z 49 (by decide)

/-! ### Claim C6 -/

/-- C6 counterexample: when the second bulk element's declared length (9)
exceeds the buffered bytes, GetCommand returns the format error together
with a partial result: the already extracted (and in-place lowercased)
command get. -/
theorem getCommand_partial_result_cex :
    (GetCommand ⟨[36, 51, 13, 10, 71, 69, 84, 13, 10, 36, 57, 13, 10,
        102, 111, 111, 13, 10], []⟩).1
      = .ret ⟨some [103, 101, 116], none, some .errorMultibulkFormatRequired⟩ ∧
    some [103, 101, 116] ≠ (none : Option (List Nat)) := by decide

/-- C6 amended: when the FIRST bulk element's declared length exceeds the
buffered bytes, GetCommand returns the format error with no partial result
(command and argument are both absent) and the reader is left untouched;
when the SECOND element's declared length exceeds the buffered bytes, it
returns the format error but the already extracted command is returned
alongside it (and the command bytes in the buffer have been lowercased in
place). -/
theorem getCommand_underflow_behaviour (r : BufReader) (i : Nat) (L : Int)
    (hfind : r.buf.findIdx? (fun x => x = 13) = some i)
    (hi : 1 ≤ i)
    (hP : ParseInt ((r.buf.drop 1).take (i - 1)) = some L)
    (hL0 : 0 ≤ L) (hLb : L ≤ 2305843009213693952)
    (hlen : r.buf.length < 2305843009213693952)
    (hover : (i : Int) + 2 + L + 2 > (r.buf.length : Int)) :
    GetCommand r = (.ret ⟨none, none, some .errorMultibulkFormatRequired⟩, r) ∧
    GetCommand ⟨[36, 51, 13, 10, 71, 69, 84, 13, 10, 36, 57, 13, 10,
        102, 111, 111, 13, 10], []⟩
      = (.ret ⟨some [103, 101, 116], none, some .errorMultibulkFormatRequired⟩,
         ⟨[36, 51, 13, 10, 103, 101, 116, 13, 10, 36, 57, 13, 10,
           102, 111, 111, 13, 10], []⟩) := by
  constructor
  · rw [GetCommand_eq,
      getCommandPure_first_underflow r.buf i L hfind hi hP hL0 hLb hlen hover]
  · decide

/-- Witness for C6 on the buffer dollar 3 CRLF only: the declared length 3
exceeds the two remaining buffered bytes. -/
theorem getCommand_underflow_behaviour_witness :
    GetCommand ⟨[36, 51, 13, 10], []⟩
      = (.ret ⟨none, none, some .errorMultibulkFormatRequired⟩, ⟨[36, 51, 13, 10], []⟩) ∧
    GetCommand ⟨[36, 51, 13, 10, 71, 69, 84, 13, 10, 36, 57, 13, 10,
        102, 111, 111, 13, 10], []⟩
      = (.ret ⟨some [103, 101, 116], none, some .errorMultibulkFormatRequired⟩,
         ⟨[36, 51, 13, 10, 103, 101, 116, 13, 10, 36, 57, 13, 10,
           102, 111, 111, 13, 10], []⟩) :=
  getCommand_underflow_behaviour ⟨[36, 51, 13, 10], []⟩ 2 3 (by decide) (by decide)
    (by decide) (by decide) (by decide) (by decide) (by decide)

/-! ### Claim C8 -/

/-- C8: GetCommand examines only bytes already buffered: it peeks at
exactly the buffered count, which never consumes from the underlying
source, so the unread underlying bytes are identical before and after the
call on every path (success, error or panic); filling to the buffered
count is a no-op. -/
theorem getCommand_no_underlying_read (r : BufReader) :
    ((GetCommand r).2).src = r.src ∧ fillTo r r.buf.length = r := by
  constructor
  · rw [GetCommand_eq]
  · simp [fillTo]

/-! ### Embedding of the Connection type (connection.go)

A Connection holds a socket (present or nil), the recorded DatabaseId, and
the buffered Reader and Writer (present or nil). Disconnect closes the
socket when one is present (the returned flag records whether a close was
performed) and then clears all four fields, resetting DatabaseId to 0.
SelectDatabase writes the select command and checks the single-line reply;
the reply and the possible write failure are inputs to the model. -/

/-- The connection-lifecycle state of connection.Connection. -/
structure Connection where
  connected : Bool
  DatabaseId : Int
  hasReader : Bool
  hasWriter : Bool
  deriving DecidableEq, Repr

/-- Connection.Disconnect: closes the socket when present (second component
records whether a Close happened), then sets connection, Reader, Writer to
nil and DatabaseId to 0. -/
def Disconnect (c : Connection) : Connection × Bool :=
  (⟨false, 0, false, false⟩, c.connected)

/-- Errors returned by Connection methods. -/
inductive ConnError where
  | invalidConnection
  | writeFailed
  | invalidSelectResponse
  deriving DecidableEq, Repr

/-- The outcome of the bufio ReadLine call on the select reply: a read
error, a truncated (prefix) line, or the line content. -/
structure ReadLineReply where
  failed : Bool
  tooLong : Bool
  line : List Nat
  deriving DecidableEq, Repr

/-- Connection.SelectDatabase: fails fast on a nil connection; bubbles a
write error; on a read error, a prefix line, or any reply other than the
literal plus OK it disconnects and returns the selection error; otherwise
it records the new database index. -/
def SelectDatabase (c : Connection) (databaseId : Int) (writeFailed : Bool)
    (reply : ReadLineReply) : Connection × Option ConnError :=
  if c.connected = false then (c, some .invalidConnection)
  else if writeFailed then (c, some .writeFailed)
  else if reply.failed = true ∨ reply.tooLong = true ∨ reply.line ≠ OK_RESPONSE then
    ((Disconnect c).1, some .invalidSelectResponse)
  else ({ c with DatabaseId := databaseId }, none)

/-! ### Claim C2 -/

/-- C2 counterexample: with prior recorded database index 5 and reply
minus E R R, SelectDatabase does not leave the index at its prior value 5:
the disconnect inside the failure path resets it to 0. -/
theorem selectDatabase_resets_index_cex :
    (SelectDatabase ⟨true, 5, true, true⟩ 7 false ⟨false, false, [45, 69, 82, 82]⟩).1.DatabaseId
      ≠ 5 := by decide

/-- C2 amended: on a connected instance with the write succeeding, any
read error, prefix reply, or reply other than the literal plus OK makes
SelectDatabase disconnect (socket, reader and writer cleared) and return
the selection error, resetting the recorded DatabaseId to the default 0 —
it equals its prior value only when that value was already 0; when the
reply is exactly plus OK, DatabaseId is updated to the requested index and
no error is returned. -/
theorem selectDatabase_reply_behaviour (c : Connection) (d : Int)
    (reply : ReadLineReply) (hconn : c.connected = true) :
    ((reply.failed = true ∨ reply.tooLong = true ∨ reply.line ≠ OK_RESPONSE) →
      SelectDatabase c d false reply
        = (⟨false, 0, false, false⟩, some .invalidSelectResponse)) ∧
    (reply.failed = false → reply.tooLong = false → reply.line = OK_RESPONSE →
      SelectDatabase c d false reply = ({ c with DatabaseId := d }, none)) := by
  constructor
  · intro hbad
    simp [SelectDatabase, hconn, hbad, Disconnect]
  · intro h1 h2 h3
    simp [SelectDatabase, hconn, h1, h2, h3]

/-- Witness for C2: prior index 5, failing reply minus E R R resets the
index to 0 with the selection error; the OK reply updates it to 7. -/
theorem selectDatabase_reply_behaviour_witness :
    ((false = true ∨ false = true ∨ ([45, 69, 82, 82] : List Nat) ≠ OK_RESPONSE) →
      SelectDatabase ⟨true, 5, true, true⟩ 7 false ⟨false, false, [45, 69, 82, 82]⟩
        = (⟨false, 0, false, false⟩, some .invalidSelectResponse)) ∧
    (false = false → false = false → ([45, 69, 82, 82] : List Nat) = OK_RESPONSE →
      SelectDatabase ⟨true, 5, true, true⟩ 7 false ⟨false, false, [45, 69, 82, 82]⟩
        = (⟨true, 7, true, true⟩, none)) :=
  selectDatabase_reply_behaviour ⟨true, 5, true, true⟩ 7 ⟨false, false, [45, 69, 82, 82]⟩ rfl

/-! ### Claim C9 -/

/-- C9: Disconnect is idempotent: for every connection state, the second of
two consecutive calls performs no socket close and returns the very same
state as the first, and that state is fully disconnected: socket absent,
reader and writer cleared, DatabaseId reset to the default 0. Disconnect
returns no error on any input (its type has no error component). -/
theorem disconnect_idempotent (c : Connection) :
    (Disconnect (Disconnect c).1).1 = (Disconnect c).1 ∧
    (Disconnect (Disconnect c).1).2 = false ∧
    (Disconnect c).1.connected = false ∧
    (Disconnect c).1.hasReader = false ∧
    (Disconnect c).1.hasWriter = false ∧
    (Disconnect c).1.DatabaseId = 0 := by
  simp [Disconnect]

/-! ### Embedding of the message streaming operations (protocol package)

The source reader is modelled as the list of bytes still unread; the
destination writer as the list of bytes written so far (Flush is a no-op
on this model, and writes cannot fail — the claims under study concern
source-side framing). bufio ReadLine strips the trailing newline (and a
carriage return preceding it) and reports a too-long line when the buffer
fills before a newline appears; at end of input with pending bytes it
returns those bytes with no error. ReadByte is the head of the stream.
io.CopyN copies min(n, available) bytes and fails when fewer than n were
available. Go byte-indexing panics are modelled by a distinguished
panicked outcome. -/

/-- Outcome of a streaming operation: success, a returned error, or a
runtime panic (out-of-range index). -/
inductive Outc where
  | ok
  | fail (e : PErr)
  | panicked
  deriving DecidableEq, Repr

/-- Result of bufio ReadLine: a line (with a flag for a line longer than
the buffer) or a read failure at end of input. -/
inductive ReadLineOut where
  | line (l : List Nat) (tooLong : Bool)
  | readFail
  deriving DecidableEq, Repr

/-- bufio ReadLine on the modelled stream. -/
def bReadLine (s : List Nat) : ReadLineOut × List Nat :=
  match s.findIdx? (fun x => x = 10) with
  | some i =>
    if i + 1 ≤ BUFFER_SIZE then
      let raw := s.take i
      ((.line (if raw.getLast? = some 13 then raw.dropLast else raw) false), s.drop (i + 1))
    else
      (.line (s.take BUFFER_SIZE) true, s.drop BUFFER_SIZE)
  | none =>
    if s.isEmpty then (.readFail, s)
    else if BUFFER_SIZE ≤ s.length then (.line (s.take BUFFER_SIZE) true, s.drop BUFFER_SIZE)
    else (.line s false, [])

/-- io.CopyN from the stream into the accumulated destination: returns the
written count, an end-of-input flag when fewer than n bytes were
available, and the two updated buffers. For n at most 0 nothing is copied
and no error is reported. -/
def copyN (dst src : List Nat) (n : Int) : (Int × Bool) × List Nat × List Nat :=
  if n ≤ 0 then ((0, false), dst, src)
  else
    let w := min n.toNat src.length
    (((w : Int), decide (w < n.toNat)), dst ++ src.take w, src.drop w)

/-- The discard loop of ignoreBulkMessage: while n is positive, read up to
BUFFER_SIZE (or n, when smaller) bytes into the refuse heap; a read at end
of input returns the read error. The fuel argument starts at n.toNat and
always dominates n, so the exhausted-fuel case coincides with the loop
exit. -/
def drainF : Nat → Int → List Nat → Outc × List Nat
  | 0, _, src => (.ok, src)
  | fuel + 1, n, src =>
    if n ≤ 0 then (.ok, src)
    else if src.isEmpty then (.fail .readFailed, src)
    else
      let k := if n > (BUFFER_SIZE : Int) then BUFFER_SIZE else n.toNat
      let copied := min k src.length
      drainF fuel (n - (copied : Int)) (src.drop copied)

/-- protocol.ignoreBulkMessage: validates the dollar sigil, special-cases
the null bulk, then discards the payload and requires the CRLF
terminator. -/
def ignoreBulkMessage (firstLine src : List Nat) : Outc × List Nat :=
  if firstLine.length < 2 ∨ firstLine.headD 0 ≠ 36 then (.fail .errorBadBulkFormat, src)
  else if firstLine = ERR_RESPONSE then (.ok, src)
  else
    match ParseInt (firstLine.drop 1) with
    | none => (.fail .errorInvalidInt, src)
    | some n =>
      match drainF n.toNat n src with
      | (.ok, src2) =>
        match src2 with
        | [] => (.fail .readFailed, src2)
        | c1 :: src3 =>
          if c1 ≠ 13 then (.fail .errorBadBulkFormat, src3)
          else
            match src3 with
            | [] => (.fail .readFailed, src3)
            | c2 :: src4 =>
              if c2 ≠ 10 then (.fail .errorBadBulkFormat, src4)
              else (.ok, src4)
      | other => other

/-- The element loop of IgnoreMultiBulkMessage: reads a line, indexes its
first byte with NO emptiness check (an empty element line is a panic),
skips integer lines (colon, byte 58), and dispatches the rest to
ignoreBulkMessage. -/
def ignoreMBLoop : Nat → List Nat → Outc × List Nat
  | 0, src => (.ok, src)
  | count + 1, src =>
    match bReadLine src with
    | (.readFail, src2) => (.fail .readFailed, src2)
    | (.line l _, src2) =>
      match l with
      | [] => (.panicked, src2)
      | b :: _ =>
        if b = 58 then ignoreMBLoop count src2
        else
          match ignoreBulkMessage l src2 with
          | (.ok, src3) => ignoreMBLoop count src3
          | (o, src3) => (o, src3)

/-- protocol.IgnoreMultiBulkMessage. -/
def IgnoreMultiBulkMessage (firstLine src : List Nat) : Outc × List Nat :=
  if firstLine.length < 2 ∨ firstLine.headD 0 ≠ 42 then (.fail .errorBadBulkFormat, src)
  else
    match ParseInt (firstLine.drop 1) with
    | none => (.fail .errorInvalidInt, src)
    | some n => ignoreMBLoop n.toNat src

/-- protocol.copyBulkMessage: validates the dollar sigil, forwards the
null bulk as a line, otherwise forwards the header line verbatim, copies
exactly the declared number of payload bytes, requires the CRLF
terminator and re-emits it. -/
def copyBulkMessage (firstLine dst src : List Nat) : Outc × List Nat × List Nat :=
  if firstLine.length < 2 ∨ firstLine.headD 0 ≠ 36 then (.fail .errorBadBulkFormat, dst, src)
  else if firstLine = ERR_RESPONSE then (.ok, dst ++ ERR_RESPONSE ++ REDIS_NEWLINE, src)
  else
    match ParseInt (firstLine.drop 1) with
    | none => (.fail .errorInvalidInt, dst, src)
    | some n =>
      match copyN (dst ++ firstLine ++ REDIS_NEWLINE) src n with
      | ((written, copyFailed), dst2, src2) =>
        if copyFailed then (.fail .readFailed, dst2, src2)
        else if written ≠ n then (.ok, dst2, src2)
        else
          match src2 with
          | [] => (.fail .readFailed, dst2, src2)
          | c1 :: src3 =>
            if c1 ≠ 13 then (.fail .errorBadBulkFormat, dst2, src3)
            else
              match src3 with
              | [] => (.fail .readFailed, dst2, src3)
              | c2 :: src4 =>
                if c2 ≠ 10 then (.fail .errorBadBulkFormat, dst2, src4)
                else (.ok, dst2 ++ REDIS_NEWLINE, src4)

/-- The element loop of CopyMultiBulkMessage: reads a line and hands EVERY
element line to copyBulkMessage (there is no integer-line passthrough in
the copy direction). -/
def copyMBLoop : Nat → List Nat → List Nat → Outc × List Nat × List Nat
  | 0, dst, src => (.ok, dst, src)
  | count + 1, dst, src =>
    match bReadLine src with
    | (.readFail, src2) => (.fail .readFailed, dst, src2)
    | (.line l _, src2) =>
      match copyBulkMessage l dst src2 with
      | (.ok, dst2, src3) => copyMBLoop count dst2 src3
      | (o, dst2, src3) => (o, dst2, src3)

/-- protocol.CopyMultiBulkMessage: validates the star sigil, forwards the
header line, then copies the declared number of elements. -/
def CopyMultiBulkMessage (firstLine dst src : List Nat) : Outc × List Nat × List Nat :=
  if firstLine.length < 2 ∨ firstLine.headD 0 ≠ 42 then (.fail .errorBadBulkFormat, dst, src)
  else
    match ParseInt (firstLine.drop 1) with
    | none => (.fail .errorInvalidInt, dst, src)
    | some n => copyMBLoop n.toNat (dst ++ firstLine ++ REDIS_NEWLINE) src

/-- protocol.CopyServerResponse: reads the first line and dispatches on
its first byte; anything that is neither a bulk nor a non-negative
multibulk is forwarded as a single line. -/
def CopyServerResponse (src dst : List Nat) : Outc × List Nat × List Nat :=
  match bReadLine src with
  | (.readFail, src2) => (.fail .readFailed, dst, src2)
  | (.line l _, src2) =>
    if l.length < 2 then (.fail .errorBadBulkFormat, dst, src2)
    else if l.headD 0 = 36 then copyBulkMessage l dst src2
    else if l.headD 0 = 42 ∧ l.getD 1 0 ≠ 45 then CopyMultiBulkMessage l dst src2
    else (.ok, dst ++ l ++ REDIS_NEWLINE, src2)

/-- Wire encoding of a bulk message with the given payload: dollar sigil,
decimal length, CRLF, payload, CRLF. -/
def bulkEnc (p : List Nat) : List Nat :=
  (36 :: natDigits p.length) ++ 13 :: 10 :: (p ++ [13, 10])


theorem copyBulkMessage_ne_panicked (firstLine dst src : List Nat) :
    (copyBulkMessage firstLine dst src).1 ≠ Outc.panicked := by
  unfold copyBulkMessage
  repeat' split
  all_goals simp


theorem copyMBLoop_ne_panicked : ∀ (count : Nat) (dst src : List Nat),
    (copyMBLoop count dst src).1 ≠ Outc.panicked := by
  intro count
  induction count with
  | zero => intro dst src; simp [copyMBLoop]
  | succ k ih =>
    intro dst src
    rcases h : bReadLine src with ⟨out, src2⟩
    cases out with
    | readFail =>
      have hred : copyMBLoop (k + 1) dst src = (.fail .readFailed, dst, src2) := by
        simp only [copyMBLoop, h]
      rw [hred]
      simp
    | line l tl =>
      rcases h2 : copyBulkMessage l dst src2 with ⟨o, dst2, src3⟩
      cases o with
      | ok =>
        have hred : copyMBLoop (k + 1) dst src = copyMBLoop k dst2 src3 := by
          simp only [copyMBLoop, h, h2]
        rw [hred]
        exact ih _ _
      | fail e =>
        have hred : copyMBLoop (k + 1) dst src = (.fail e, dst2, src3) := by
          simp only [copyMBLoop, h, h2]
        rw [hred]
        simp
      | panicked =>
        have h3 := copyBulkMessage_ne_panicked l dst src2
        rw [h2] at h3
        simp at h3

theorem CopyMultiBulkMessage_ne_panicked (firstLine dst src : List Nat) :
    (CopyMultiBulkMessage firstLine dst src).1 ≠ Outc.panicked := by
  unfold CopyMultiBulkMessage
  split
  · simp
  · split
    · simp
    · exact copyMBLoop_ne_panicked _ _ _

theorem CopyServerResponse_ne_panicked (src dst : List Nat) :
    (CopyServerResponse src dst).1 ≠ Outc.panicked := by
  unfold CopyServerResponse
  repeat' split
  all_goals first
    | exact copyBulkMessage_ne_panicked _ _ _
    | exact CopyMultiBulkMessage_ne_panicked _ _ _
    | simp


theorem findIdx_nl (hdr rest : List Nat) (h10 : ∀ a ∈ hdr, a ≠ 10) :
    (hdr ++ 13 :: 10 :: rest).findIdx? (fun x => x = 10) = some (hdr.length + 1) := by
  induction hdr with
  | nil => simp
  | cons a t ih =>
    have ha : a ≠ 10 := h10 a (List.mem_cons_self a t)
    have ih2 := ih (fun x hx => h10 x (List.mem_cons_of_mem a hx))
    simp only [List.cons_append, List.findIdx?_cons, List.findIdx?_succ, ih2]
    simp [ha]

theorem bReadLine_crlf (hdr rest : List Nat) (h10 : ∀ a ∈ hdr, a ≠ 10)
    (hlen : hdr.length + 2 ≤ BUFFER_SIZE) :
    bReadLine (hdr ++ 13 :: 10 :: rest) = (.line hdr false, rest) := by
  have hcond : hdr.length + 1 + 1 ≤ BUFFER_SIZE := by omega
  have htake : (hdr ++ 13 :: 10 :: rest).take (hdr.length + 1) = hdr ++ [13] := by
    rw [show (13 :: 10 :: rest : List Nat) = [13] ++ 10 :: rest from rfl, ← List.append_assoc]
    rw [show hdr.length + 1 = (hdr ++ [13]).length from by simp]
    exact List.take_left _ _
  have hdrop : (hdr ++ 13 :: 10 :: rest).drop (hdr.length + 1 + 1) = rest := by
    rw [show (13 :: 10 :: rest : List Nat) = [13, 10] ++ rest from rfl, ← List.append_assoc]
    rw [show hdr.length + 1 + 1 = (hdr ++ [13, 10]).length from by simp]
    exact List.drop_left _ _
  unfold bReadLine
  rw [findIdx_nl hdr rest h10]
  simp [hcond, htake, hdrop]


theorem copyN_exact (dst src : List Nat) (n : Nat) (h : n ≤ src.length) :
    copyN dst src (n : Int) = (((n : Int), false), dst ++ src.take n, src.drop n) := by
  unfold copyN
  by_cases h0 : (n : Int) ≤ 0
  · have hn : n = 0 := by omega
    subst hn
    simp
  · rw [if_neg h0]
    have ht : ((n : Int)).toNat = n := by omega
    rw [ht]
    have hmin : min n src.length = n := by omega
    rw [hmin]
    simp

theorem copyBulkMessage_enc (p dst rest : List Nat)
    (hp : p.length < 9223372036854775808) :
    copyBulkMessage (36 :: natDigits p.length) dst (p ++ 13 :: 10 :: rest)
      = (.ok, dst ++ bulkEnc p, rest) := by
  have hne := natDigits_ne_nil p.length
  have hmem := natDigits_mem p.length
  unfold copyBulkMessage
  have hlen2 : ¬ ((36 :: natDigits p.length).length < 2 ∨
      (36 :: natDigits p.length).headD 0 ≠ 36) := by
    push_neg
    refine ⟨?_, rfl⟩
    cases hden : natDigits p.length with
    | nil => exact absurd hden hne
    | cons a t => simp
  rw [if_neg hlen2]
  have hnerr : 36 :: natDigits p.length ≠ ERR_RESPONSE := by
    unfold ERR_RESPONSE
    intro hcon
    have hd : natDigits p.length = [45, 49] := by
      injection hcon with h1 h2
    have h45 := hmem 45 (by rw [hd]; simp)
    omega
  rw [if_neg hnerr]
  have hPI : ParseInt ((36 :: natDigits p.length).drop 1) = some ((p.length : Nat) : Int) := by
    simpa using ParseInt_natDigits p.length hp
  simp only [hPI]
  rw [copyN_exact _ _ p.length (by simp)]
  rw [List.take_left, List.drop_left]
  simp [bulkEnc, REDIS_NEWLINE, List.append_assoc]


theorem copyMBLoop_bulk_step (count : Nat) (dst p rest : List Nat)
    (hp : p.length < 9223372036854775808) :
    copyMBLoop (count + 1) dst (bulkEnc p ++ rest)
      = copyMBLoop count (dst ++ bulkEnc p) rest := by
  have hassoc : bulkEnc p ++ rest
      = (36 :: natDigits p.length) ++ 13 :: 10 :: (p ++ 13 :: 10 :: rest) := by
    simp [bulkEnc, List.append_assoc]
  have h10 : ∀ a ∈ 36 :: natDigits p.length, a ≠ 10 := by
    intro a ha
    rcases List.mem_cons.mp ha with h | h
    · omega
    · have := natDigits_mem p.length a h
      omega
  have hlen : (36 :: natDigits p.length).length + 2 ≤ BUFFER_SIZE := by
    have := natDigits_length_le_19 p.length hp
    simp only [List.length_cons, BUFFER_SIZE]
    omega
  rw [hassoc]
  simp only [copyMBLoop]
  simp only [bReadLine_crlf _ _ h10 hlen, copyBulkMessage_enc p dst rest hp]


theorem copyBulkMessage_badframe (fl dst src : List Nat)
    (h : fl.length < 2 ∨ fl.headD 0 ≠ 36) :
    copyBulkMessage fl dst src = (.fail .errorBadBulkFormat, dst, src) := by
  unfold copyBulkMessage
  rw [if_pos h]

theorem copyMultiBulk_three (p1 p2 p3 rest dst : List Nat)
    (h1 : p1.length < 9223372036854775808)
    (h2 : p2.length < 9223372036854775808)
    (h3 : p3.length < 9223372036854775808) :
    CopyMultiBulkMessage [42, 51] dst (bulkEnc p1 ++ bulkEnc p2 ++ bulkEnc p3 ++ rest)
      = (.ok, dst ++ [42, 51] ++ [13, 10] ++ bulkEnc p1 ++ bulkEnc p2 ++ bulkEnc p3, rest) := by
  unfold CopyMultiBulkMessage
  rw [if_neg (by simp :
    ¬ (([42, 51] : List Nat).length < 2 ∨ ([42, 51] : List Nat).headD 0 ≠ 42))]
  have hPI : ParseInt (([42, 51] : List Nat).drop 1) = some 3 := by decide
  simp only [hPI]
  rw [show ((3 : Int)).toNat = 3 from rfl]
  simp only [List.append_assoc]
  rw [show (3 : Nat) = 2 + 1 from rfl, copyMBLoop_bulk_step 2 _ p1 _ h1]
  rw [show (2 : Nat) = 1 + 1 from rfl, copyMBLoop_bulk_step 1 _ p2 _ h2]
  rw [show (1 : Nat) = 0 + 1 from rfl, copyMBLoop_bulk_step 0 _ p3 _ h3]
  simp [copyMBLoop, REDIS_NEWLINE, List.append_assoc]

theorem copyMultiBulk_integer_element (t rest dst : List Nat)
    (h10 : ∀ a ∈ t, a ≠ 10) (hlen : t.length + 3 ≤ BUFFER_SIZE) :
    (CopyMultiBulkMessage [42, 51] dst ((58 :: t) ++ 13 :: 10 :: rest)).1
      = Outc.fail .errorBadBulkFormat := by
  have h10c : ∀ a ∈ 58 :: t, a ≠ 10 := by
    intro a ha
    rcases List.mem_cons.mp ha with h | h
    · omega
    · exact h10 a h
  have hlenc : (58 :: t).length + 2 ≤ BUFFER_SIZE := by
    simp only [List.length_cons]
    omega
  unfold CopyMultiBulkMessage
  rw [if_neg (by simp :
    ¬ (([42, 51] : List Nat).length < 2 ∨ ([42, 51] : List Nat).headD 0 ≠ 42))]
  have hPI : ParseInt (([42, 51] : List Nat).drop 1) = some 3 := by decide
  simp only [hPI]
  rw [show ((3 : Int)).toNat = 3 from rfl]
  rw [show (3 : Nat) = 2 + 1 from rfl]
  simp only [copyMBLoop, bReadLine_crlf (58 :: t) rest h10c hlenc,
    copyBulkMessage_badframe (58 :: t) _ rest (Or.inr (by simp))]


/-! ### Claims C3 and C4 -/

/-- C3 counterexample: a well-formed 3-element multibulk whose first
element is the integer reply colon 1 is NOT forwarded byte-identically
with no error: CopyMultiBulkMessage hands the integer line to
copyBulkMessage, which rejects it as a bad bulk format. -/
theorem copyMultiBulk_mixed_cex :
    (CopyMultiBulkMessage [42, 51] []
      ([58, 49, 13, 10] ++ bulkEnc [97] ++ bulkEnc [98])).1
      = Outc.fail .errorBadBulkFormat ∧
    Outc.fail .errorBadBulkFormat ≠ Outc.ok := by decide

/-- C3 amended: for every 3-element multibulk message whose elements are
all BULK messages, CopyMultiBulkMessage forwards the header line and all
three elements to the destination byte-identical to the input and returns
no error; an element that is an integer reply (a line beginning with the
colon byte 58) is instead rejected with the bad-bulk-format error — the
integer passthrough exists only in IgnoreMultiBulkMessage. -/
theorem copyMultiBulk_three_elements (p1 p2 p3 t rest rest2 dst dst2 : List Nat)
    (h1 : p1.length < 9223372036854775808)
    (h2 : p2.length < 9223372036854775808)
    (h3 : p3.length < 9223372036854775808)
    (ht10 : ∀ a ∈ t, a ≠ 10) (htlen : t.length + 3 ≤ BUFFER_SIZE) :
    CopyMultiBulkMessage [42, 51] dst (bulkEnc p1 ++ bulkEnc p2 ++ bulkEnc p3 ++ rest)
      = (.ok, dst ++ [42, 51] ++ [13, 10] ++ bulkEnc p1 ++ bulkEnc p2 ++ bulkEnc p3, rest) ∧
    (CopyMultiBulkMessage [42, 51] dst2 ((58 :: t) ++ 13 :: 10 :: rest2)).1
      = Outc.fail .errorBadBulkFormat :=
  ⟨copyMultiBulk_three p1 p2 p3 rest dst h1 h2 h3,
   copyMultiBulk_integer_element t rest2 dst2 ht10 htlen⟩

/-- Witness for C3 at payloads a, empty, and 1 2, and the integer line
colon 1. -/
theorem copyMultiBulk_three_elements_witness :
    CopyMultiBulkMessage [42, 51] [] (bulkEnc [97] ++ bulkEnc [] ++ bulkEnc [49, 50] ++ [])
      = (.ok, [] ++ [42, 51] ++ [13, 10] ++ bulkEnc [97] ++ bulkEnc [] ++ bulkEnc [49, 50], []) ∧
    (CopyMultiBulkMessage [42, 51] [] ((58 :: [49]) ++ 13 :: 10 :: [])).1
      = Outc.fail .errorBadBulkFormat :=
  copyMultiBulk_three_elements [97] [] [49, 50] [49] [] [] [] []
    (by decide) (by decide) (by decide) (by decide) (by decide)

/-- C4 counterexample: IgnoreMultiBulkMessage is NOT panic-free: on the
header star 1 with an empty element line (the stream is just CRLF) it
indexes byte 0 of an empty line, an out-of-range access. -/
theorem ignoreMultiBulk_empty_line_panics_cex :
    IgnoreMultiBulkMessage [42, 49] [13, 10] = (Outc.panicked, []) := by decide

/-- C4 amended: CopyMultiBulkMessage and CopyServerResponse never panic on
any input — every byte-index access they perform is guarded; bad framing
(a first line that is too short or lacks the star sigil) is returned as
the bad-bulk-format error by both CopyMultiBulkMessage and
IgnoreMultiBulkMessage; truncated input surfaces as the bubbled read
error. IgnoreMultiBulkMessage, however, can panic on an empty element
line (see the counterexample), so the panic-freedom part of the claim
holds only for the two copy operations. -/
theorem streamers_never_panic_except_ignore (fl fl2 dst dst2 dst3 src src2 : List Nat)
    (hbad : fl.length < 2 ∨ fl.headD 0 ≠ 42) :
    (CopyMultiBulkMessage fl2 dst src).1 ≠ Outc.panicked ∧
    (CopyServerResponse src2 dst2).1 ≠ Outc.panicked ∧
    (CopyMultiBulkMessage fl dst src).1 = Outc.fail .errorBadBulkFormat ∧
    (IgnoreMultiBulkMessage fl src).1 = Outc.fail .errorBadBulkFormat ∧
    (CopyServerResponse [] dst3).1 = Outc.fail .readFailed := by
  refine ⟨CopyMultiBulkMessage_ne_panicked _ _ _, CopyServerResponse_ne_panicked _ _,
    ?_, ?_, ?_⟩
  · unfold CopyMultiBulkMessage
    rw [if_pos hbad]
  · unfold IgnoreMultiBulkMessage
    rw [if_pos hbad]
  · simp [CopyServerResponse, bReadLine]

/-- Witness for C4 at the too-short header consisting of the single byte
43. -/
theorem streamers_never_panic_except_ignore_witness :
    (CopyMultiBulkMessage [42, 49] [] [58, 13, 10]).1 ≠ Outc.panicked ∧
    (CopyServerResponse [43, 79, 75, 13, 10] []).1 ≠ Outc.panicked ∧
    (CopyMultiBulkMessage [43] [] [58, 13, 10]).1 = Outc.fail .errorBadBulkFormat ∧
    (IgnoreMultiBulkMessage [43] [58, 13, 10]).1 = Outc.fail .errorBadBulkFormat ∧
    (CopyServerResponse [] []).1 = Outc.fail .readFailed :=
  streamers_never_panic_except_ignore [43] [42, 49] [] [] [] [58, 13, 10]
    [43, 79, 75, 13, 10] (Or.inl (by decide))

end Rmux
